import Mathlib

/-!
# noderecycler: a shallow embedding of `main.go`

The recycler talks to two control planes (the Kubernetes API server and the
GCE instances service). Both are embedded as one environment: a
deterministic transition system over an arbitrary state type `σ`, so that
a statement quantified over `Env σ` and its state holds for every outcome
of the remote calls. Every remote call, every log line and every sleep is
appended to a trace; `os.Exit` and run-time panics are outcomes of a
function. The sort of the standard library is a parameter of the functions
that call it, constrained by the contract `SortSliceSpec`.
-/

namespace NodeRecycler

/-! ## Data model -/

/-- A Go `error` value, represented by its message. -/
abbrev Error := String

/-- A `*compute.Operation`, represented by its name. -/
abbrev Operation := String

/-- A `metav1.Time`, represented by the reading `Time.UnixNano()` gives for it
(an int64 count of nanoseconds, exact for instants between 1678 and 2262). -/
structure Time where
  UnixNano : Int
deriving DecidableEq, Repr

/-- The fields of `corev1.Node` the program reads or writes: `Name`,
`CreationTimestamp`, `Labels`, `Spec.Unschedulable` and `Spec.ProviderID`.
`Labels` is a Go `map[string]string`, kept as an association list read with
`List.lookup`. -/
structure Node where
  Name : String
  CreationTimestamp : Time
  Labels : List (String × String)
  Unschedulable : Bool
  ProviderID : String
deriving DecidableEq, Repr

/-- The fields of `corev1.Pod` the program reads: `Namespace`, `Name` and
`Spec.NodeName`. -/
structure Pod where
  Namespace : String
  Name : String
  NodeName : String
deriving DecidableEq, Repr

/-- The `Recycler` struct without its two client handles, which are the
environment. Durations are int64 nanosecond counts. -/
structure Recycler where
  AgeToKill : Int
  SleepTime : Int
  Pod : Pod
deriving DecidableEq, Repr

/-- What the process does that is visible from outside. -/
inductive Event where
  | log (msg : String)
  | nodesList
  | nodesUpdate (n : Node)
  | podsList (fieldSelector : String)
  | podsEvict (ns : String) (name : String)
  | nodesDelete (name : String)
  | gceDelete (project : String) (zone : String) (inst : String)
  | sleep (d : Int)
deriving DecidableEq, Repr

/-- How a Go function call ends: it returns, the process exits through
`os.Exit`, or a run-time panic unwinds it. -/
inductive Outcome (α : Type) where
  | ret (a : α)
  | exit (code : Int)
  | panic (msg : String)
deriving DecidableEq, Repr

/-- The two control planes and the clock. Each call maps the state of the
outside world to an answer and a new state. -/
structure Env (σ : Type) where
  nodesList : σ → Except Error (List Node) × σ
  nodesUpdate : Node → σ → Option Error × σ
  podsList : String → σ → Except Error (List Pod) × σ
  podsEvict : String → String → σ → Option Error × σ
  nodesDelete : String → σ → Option Error × σ
  gceDelete : String → String → String → σ → Except Error Operation × σ
  now : σ → Time × σ

/-- The state threaded through the program: the outside world and the trace
of events so far. -/
structure St (σ : Type) where
  world : σ
  trace : List Event

variable {σ : Type}

/-- Append one event to the trace. -/
def emit (e : Event) (s : St σ) : St σ :=
  ⟨s.world, s.trace ++ [e]⟩

/-- The remote calls of a trace: everything but log lines and sleeps. -/
def isCall : Event → Bool
  | .log _ => false
  | .sleep _ => false
  | _ => true

/-- The trace restricted to remote calls. -/
def calls (t : List Event) : List Event :=
  t.filter isCall

/-! ## Library functions used by the program -/

/-- The segments of a character list around each occurrence of `sep`. -/
def splitChars (sep : Char) : List Char → List (List Char)
  | [] => [[]]
  | c :: cs =>
    if c = sep then [] :: splitChars sep cs
    else
      match splitChars sep cs with
      | [] => [[c]]
      | seg :: rest => (c :: seg) :: rest

/-- Go's `strings.Split(s, sep)` for a one-character separator: the
substrings between the separators, one more than there are separators. -/
def stringsSplit (s : String) (sep : Char) : List String :=
  (splitChars sep s.data).map String.mk

/-- Go's `Time.Sub`, hence `time.Since`: the difference as a `Duration`,
saturated at the int64 bounds. -/
def timeSub (t u : Time) : Int :=
  max (-(2 ^ 63)) (min (2 ^ 63 - 1) (t.UnixNano - u.UnixNano))

/-- The `less` closure `getElderNode` passes to `sort.Slice`. -/
def creationLess (a b : Node) : Bool :=
  decide (a.CreationTimestamp.UnixNano < b.CreationTimestamp.UnixNano)

/-- The documented contract of Go's `sort.Slice`, the only fact about the
standard library's sort the program may rely on: for a `less` that is
asymmetric and whose complement is transitive, the result is a
rearrangement of the input in which no element is `less` than an earlier
one. Stability is not part of the contract. -/
def SortSliceSpec (sortSlice : (Node → Node → Bool) → List Node → List Node) : Prop :=
  ∀ less : Node → Node → Bool,
    (∀ a b, less a b = true → less b a = false) →
    (∀ a b c, less b a = false → less c b = false → less c a = false) →
    ∀ l, (sortSlice less l).Perm l ∧
      (sortSlice less l).Pairwise (fun a b => less b a = false)

/-- Inner loop of the standard library's `insertionSort_func`: the element
`x` moves left across its predecessors (given nearest first) for as long as
`less(x, predecessor)`. -/
def bubbleLeft (less : Node → Node → Bool) (x : Node) : List Node → List Node
  | [] => [x]
  | y :: ys => if less x y then y :: bubbleLeft less x ys else x :: y :: ys

/-- The standard library's `insertionSort_func`: every element in turn,
from the left, is moved into the part already sorted (kept reversed while
the loop runs). -/
def insertionSortFunc (less : Node → Node → Bool) (data : List Node) : List Node :=
  (data.foldl (fun sortedRev x => bubbleLeft less x sortedRev) []).reverse

/-- `data.Swap(i, j)`. -/
def swapAt (data : List Node) (i j : Nat) : List Node :=
  match data[i]?, data[j]? with
  | some a, some b => (data.set i b).set j a
  | _, _ => data

/-- The pass with gap 6 that `quickSort_func` runs before the insertion
sort: for `i` from 6 up, swap elements `i` and `i - 6` when
`less(i, i - 6)`. -/
def gapPass (less : Node → Node → Bool) (data : List Node) : List Node :=
  (List.range (data.length - 6)).foldl
    (fun data k =>
      match data[k + 6]?, data[k]? with
      | some x, some y => if less x y then swapAt data (k + 6) k else data
      | _, _ => data)
    data

/-- What `sort.Slice` of the Go releases up to 1.18 (`quickSort_func`) does
with a slice of at most 12 elements: the gap-6 pass, then the insertion
sort. On a longer list it is still a sort, though not the library's. -/
def legacySortSlice (less : Node → Node → Bool) (data : List Node) : List Node :=
  insertionSortFunc less (gapPass less data)

/-! ## The program -/

/-- The marker label of preemptible nodes. -/
def preemptibleLabel : String := "cloud.google.com/gke-preemptible"

/-- `Recycler.deleteInstance`: split the provider id on "/", index the
segments 2, 3 and 4 (a panic when one is out of range) and ask GCE to delete
that instance. -/
def deleteInstance (env : Env σ) (n : Node) (s : St σ) :
    Outcome (Except Error Operation) × St σ :=
  let p := stringsSplit n.ProviderID '/'
  match p[2]?, p[3]?, p[4]? with
  | some project, some zone, some inst =>
    let r := env.gceDelete project zone inst s.world
    (.ret r.1, ⟨r.2, s.trace ++ [.gceDelete project zone inst]⟩)
  | _, _, _ => (.panic "runtime error: index out of range", s)

/-- `Recycler.getNodes`. -/
def getNodes (env : Env σ) (s : St σ) : Except Error (List Node) × St σ :=
  let s1 := emit (.log "Listing available nodes in the cluster") s
  let r := env.nodesList s1.world
  (r.1, ⟨r.2, s1.trace ++ [.nodesList]⟩)

/-- `Recycler.getKillableNodes`: the loop appends each node whose label map
has the preemptible key. -/
def getKillableNodes (env : Env σ) (s : St σ) : Except Error (List Node) × St σ :=
  match getNodes env s with
  | (.error err, s1) => (.error err, s1)
  | (.ok items, s1) =>
    let s2 := emit (.log "Getting nodes that can be recycled (preemptibles)") s1
    let kn := items.foldl
      (fun kn n =>
        match n.Labels.lookup preemptibleLabel with
        | some _ => kn ++ [n]
        | none => kn)
      []
    (.ok kn, s2)

/-- `Recycler.getElderNode`: sort the killable nodes by creation time and
take element 0 (a panic when there is none). -/
def getElderNode (sortSlice : (Node → Node → Bool) → List Node → List Node)
    (env : Env σ) (s : St σ) : Outcome (Except Error Node) × St σ :=
  match getKillableNodes env s with
  | (.error err, s1) => (.ret (.error err), s1)
  | (.ok n, s1) =>
    let s2 := emit (.log "Getting the oldest node") s1
    match (sortSlice creationLess n)[0]? with
    | none => (.panic "runtime error: index out of range", s2)
    | some node => (.ret (.ok node), emit (.log ("Oldest node is " ++ node.Name)) s2)

/-- `Recycler.cordonNode`: the node is passed by pointer, so the node after
the call is part of the result. -/
def cordonNode (env : Env σ) (n : Node) (s : St σ) : (Option Error × Node) × St σ :=
  if n.Unschedulable then
    ((none, n), emit (.log "Node already cordoned") s)
  else
    let s1 := emit (.log "Cordoning Node") s
    let n1 := { n with Unschedulable := true }
    let r := env.nodesUpdate n1 s1.world
    ((r.1, n1), ⟨r.2, s1.trace ++ [.nodesUpdate n1]⟩)

/-- `Recycler.getPodsOnNode`. -/
def getPodsOnNode (env : Env σ) (n : Node) (s : St σ) : Except Error (List Pod) × St σ :=
  let listOptions := "spec.nodeName=" ++ n.Name
  let s1 := emit (.log "Listing pods in the node") s
  let r := env.podsList listOptions s1.world
  (r.1, ⟨r.2, s1.trace ++ [.podsList listOptions]⟩)

/-- `Recycler.isMyNode`. -/
def isMyNode (r : Recycler) (n : Node) : Bool :=
  r.Pod.NodeName == n.Name

/-- `Recycler.evictPod`. -/
def evictPod (env : Env σ) (p : Pod) (s : St σ) : St σ :=
  let s1 := emit (.log ("Evicting pod " ++ p.Namespace ++ "/" ++ p.Name)) s
  let r := env.podsEvict p.Namespace p.Name s1.world
  let s2 : St σ := ⟨r.2, s1.trace ++ [.podsEvict p.Namespace p.Name]⟩
  match r.1 with
  | some err => emit (.log err) s2
  | none => s2

/-- `Recycler.drainNode`. -/
def drainNode (env : Env σ) (n : Node) (s : St σ) : St σ :=
  let s1 := emit (.log "Preparing to drain node") s
  match getPodsOnNode env n s1 with
  | (.error err, s2) => emit (.log err) s2
  | (.ok items, s2) => items.foldl (fun st p => evictPod env p st) s2

/-- `Recycler.deleteNode`. -/
def deleteNode (env : Env σ) (n : Node) (s : St σ) : St σ :=
  let s1 := emit (.log "Removing node from cluster") s
  let r := env.nodesDelete n.Name s1.world
  let s2 : St σ := ⟨r.2, s1.trace ++ [.nodesDelete n.Name]⟩
  match r.1 with
  | some err => emit (.log err) s2
  | none => emit (.log "Node removed") s2

/-- `Recycler.recycleNode`. -/
def recycleNode (env : Env σ) (r : Recycler) (n : Node) (s : St σ) : Outcome Unit × St σ :=
  let s1 := emit (.log "Preparing to recycle node") s
  let c := cordonNode env n s1
  let n1 := c.1.2
  if isMyNode r n1 then
    let s2 := emit (.log "This is my node. Evicting myself. Bye!") c.2
    (.exit 0, evictPod env r.Pod s2)
  else
    let s2 := drainNode env n1 c.2
    let s3 := deleteNode env n1 s2
    match deleteInstance env n1 s3 with
    | (.ret _, s4) => (.ret (), emit (.log "Node has been recycled") s4)
    | (.exit code, s4) => (.exit code, s4)
    | (.panic msg, s4) => (.panic msg, s4)

/-- One iteration of the `for` loop of `main`. -/
def mainLoopBody (sortSlice : (Node → Node → Bool) → List Node → List Node)
    (env : Env σ) (r : Recycler) (s : St σ) : Outcome Unit × St σ :=
  match getElderNode sortSlice env s with
  | (.panic msg, s1) => (.panic msg, s1)
  | (.exit code, s1) => (.exit code, s1)
  | (.ret (.error _), s1) => (.exit 1, emit (.log "Unable to get oldest node. Quitting") s1)
  | (.ret (.ok n), s1) =>
    let t := env.now s1.world
    let a := timeSub t.1 n.CreationTimestamp
    let s2 : St σ := ⟨t.2, s1.trace⟩
    let res :=
      if a > r.AgeToKill then recycleNode env r n s2
      else (.ret (), emit (.log "Node age is lower than the minimum age to be recycled.") s2)
    match res with
    | (.ret _, s3) => (.ret (), emit (.sleep r.SleepTime) (emit (.log "Sleeping...") s3))
    | (.exit code, s3) => (.exit code, s3)
    | (.panic msg, s3) => (.panic msg, s3)

/-! ## Concrete environments and inputs -/

/-- A scripted outside world: its state counts the remote calls made so far,
and call number `w` fails exactly when `fails w`. The node list, the pod
list and the clock reading are fixed. -/
def scriptedEnv (items : List Node) (podItems : List Pod) (clock : Time)
    (fails : Nat → Bool) : Env Nat where
  nodesList := fun w => (if fails w then .error "nodes list failed" else .ok items, w + 1)
  nodesUpdate := fun _ w => (if fails w then some "update failed" else none, w + 1)
  podsList := fun _ w => (if fails w then .error "pods list failed" else .ok podItems, w + 1)
  podsEvict := fun _ _ w => (if fails w then some "eviction refused" else none, w + 1)
  nodesDelete := fun _ w => (if fails w then some "node delete failed" else none, w + 1)
  gceDelete := fun _ _ inst w =>
    (if fails w then .error "instance delete failed" else .ok ("operation-" ++ inst), w + 1)
  now := fun w => (clock, w)

/-- The start of a run against the scripted world. -/
def start : St Nat := ⟨0, []⟩

/-- A node record with the preemptible label set to the empty string. -/
def mkNode (name : String) (created : Int) (unschedulable : Bool) (providerID : String) : Node :=
  ⟨name, ⟨created⟩, [("beta.kubernetes.io/os", "linux"), (preemptibleLabel, "")],
    unschedulable, providerID⟩

/-- A script in which no call fails. -/
def allSucceed : Nat → Bool := fun _ => false

/-- A script in which every call fails. -/
def allFail : Nat → Bool := fun _ => true

/-- The node the recycler runs on, created at instant 0. -/
def nodeA : Node := mkNode "node-a" 0 false "gce://proj-1/us-central1-a/node-a"

/-- A node without the preemptible label. -/
def nodeB : Node :=
  ⟨"node-b", ⟨5⟩, [("pool", "default")], false, "gce://proj-1/us-central1-a/node-b"⟩

/-- A second preemptible node, already cordoned. -/
def nodeC : Node := mkNode "node-c" 7 true "gce://proj-1/us-central1-a/node-c"

/-- A preemptible node with an empty provider id. -/
def nodeNoProvider : Node := mkNode "node-x" 0 false ""

/-- A preemptible node whose provider id lacks the instance segment. -/
def nodeShortProvider : Node := mkNode "node-y" 0 false "gce://proj-1/zone"

/-- Seven preemptible nodes named a to g, created at 2, 5, 5, 1, 5, 5, 1. -/
def sevenNodes : List Node :=
  [mkNode "a" 2 false "gce://proj-1/us-central1-a/a",
    mkNode "b" 5 false "gce://proj-1/us-central1-a/b",
    mkNode "c" 5 false "gce://proj-1/us-central1-a/c",
    mkNode "d" 1 false "gce://proj-1/us-central1-a/d",
    mkNode "e" 5 false "gce://proj-1/us-central1-a/e",
    mkNode "f" 5 false "gce://proj-1/us-central1-a/f",
    mkNode "g" 1 false "gce://proj-1/us-central1-a/g"]

/-- The recycler's own pod, running on `node-a`. -/
def selfPod : Pod := ⟨"kube-system", "noderecycler-0", "node-a"⟩

/-- A recycler with a threshold of 12 hours and a poll interval of 10
minutes, the defaults of `main`. -/
def recycler : Recycler := ⟨43200000000000, 600000000000, selfPod⟩

/-- Two workload pods. -/
def workload : List Pod := [⟨"default", "web-1", "node-b"⟩, ⟨"batch", "job-7", "node-b"⟩]

/-! ## Specification-side notions -/

/-- The label map of the node contains the key, whatever the value. -/
def hasLabel (key : String) (n : Node) : Bool :=
  n.Labels.any (fun kv => kv.1 == key)

/-- The events of one `cordonNode` call on `n`. -/
def cordonEvents (n : Node) : List Event :=
  if n.Unschedulable then [.log "Node already cordoned"]
  else [.log "Cordoning Node", .nodesUpdate { n with Unschedulable := true }]

/-- The eviction request addressed to a pod. -/
def evictionOf (p : Pod) : Event :=
  .podsEvict p.Namespace p.Name

/-- The remote calls of `recycleNode` on a node other than the recycler's,
up to and including the node deletion. -/
def callsBeforeInstance (env : Env σ) (n : Node) (s : St σ) : List Event :=
  calls s.trace ++
    (if n.Unschedulable then [] else [.nodesUpdate { n with Unschedulable := true }]) ++
    Event.podsList ("spec.nodeName=" ++ n.Name) ::
      (match (env.podsList ("spec.nodeName=" ++ n.Name)
          (cordonNode env n (emit (.log "Preparing to recycle node") s)).2.world).1 with
        | .ok items => items.map evictionOf
        | .error _ => []) ++
    [.nodesDelete n.Name]

/-- The first candidate, in list order, that no candidate is older than. -/
def firstOldest (candidates : List Node) : Option Node :=
  candidates.find? (fun c => candidates.all (fun d =>
    decide (c.CreationTimestamp.UnixNano ≤ d.CreationTimestamp.UnixNano)))

/-! ## Trace lemmas -/

theorem calls_append (t u : List Event) : calls (t ++ u) = calls t ++ calls u := by
  simp [calls]

theorem lookup_isSome_eq_hasLabel (key : String) (n : Node) :
    (n.Labels.lookup key).isSome = hasLabel key n := by
  unfold hasLabel
  induction n.Labels with
  | nil => rfl
  | cons kv rest ih =>
    obtain ⟨k, v⟩ := kv
    by_cases hk : key = k
    · subst hk
      simp [List.lookup]
    · have h1 : (key == k) = false := by simpa using hk
      have h2 : (k == key) = false := by simpa using fun h => hk h.symm
      simp [List.lookup, h1, h2, ih]

theorem killable_foldl (items acc : List Node) :
    items.foldl
      (fun kn n =>
        match n.Labels.lookup preemptibleLabel with
        | some _ => kn ++ [n]
        | none => kn)
      acc = acc ++ items.filter (hasLabel preemptibleLabel) := by
  induction items generalizing acc with
  | nil => simp
  | cons n rest ih =>
    have h := lookup_isSome_eq_hasLabel preemptibleLabel n
    cases hl : n.Labels.lookup preemptibleLabel with
    | none =>
      rw [hl] at h
      simp [List.foldl, hl, ih, ← h]
    | some v =>
      rw [hl] at h
      simp [List.foldl, hl, ih, ← h]

theorem cordonNode_trace (env : Env σ) (n : Node) (s : St σ) :
    (cordonNode env n s).2.trace = s.trace ++ cordonEvents n := by
  unfold cordonNode cordonEvents
  by_cases h : n.Unschedulable = true <;> simp [h, emit]

theorem cordonNode_name (env : Env σ) (n : Node) (s : St σ) :
    (cordonNode env n s).1.2.Name = n.Name ∧
      (cordonNode env n s).1.2.ProviderID = n.ProviderID := by
  unfold cordonNode
  by_cases h : n.Unschedulable = true <;> simp [h]

theorem evictPod_trace (env : Env σ) (p : Pod) (s : St σ) :
    ∃ tail, (tail = [] ∨ ∃ err, tail = [Event.log err]) ∧
      (evictPod env p s).trace =
        s.trace ++ [.log ("Evicting pod " ++ p.Namespace ++ "/" ++ p.Name), evictionOf p]
          ++ tail := by
  unfold evictPod
  cases h : (env.podsEvict p.Namespace p.Name s.world).1 with
  | none => exact ⟨[], Or.inl rfl, by simp [emit, evictionOf, h]⟩
  | some err => exact ⟨[.log err], Or.inr ⟨err, rfl⟩, by simp [emit, evictionOf, h]⟩

theorem evictPod_calls (env : Env σ) (p : Pod) (s : St σ) :
    calls (evictPod env p s).trace = calls s.trace ++ [evictionOf p] := by
  obtain ⟨tail, ht, h⟩ := evictPod_trace env p s
  rw [h]
  rcases ht with rfl | ⟨err, rfl⟩ <;> simp [calls, isCall, evictionOf]

theorem evict_foldl_calls (env : Env σ) (items : List Pod) (s : St σ) :
    calls (items.foldl (fun st p => evictPod env p st) s).trace =
      calls s.trace ++ items.map evictionOf := by
  induction items generalizing s with
  | nil => simp
  | cons p rest ih => simp [List.foldl, ih, evictPod_calls]

/-! ## Filtering the recyclable nodes -/

/-- C6: when the node list call answers with `items`, `getKillableNodes`
returns without error exactly the nodes of `items` whose label map has the key
"cloud.google.com/gke-preemptible" under any value: the filtered list, a
sublist of the input (same relative order) in which every node occurs as
often as in the input, and the empty list when no node has the key. -/
theorem getKillableNodes_filters_marker (env : Env σ) (s : St σ) (items : List Node)
    (h : (env.nodesList s.world).1 = Except.ok items) :
    (getKillableNodes env s).1 = Except.ok (items.filter (hasLabel preemptibleLabel)) ∧
    (items.filter (hasLabel preemptibleLabel)).Sublist items ∧
    (∀ n, (items.filter (hasLabel preemptibleLabel)).count n =
      if hasLabel preemptibleLabel n then items.count n else 0) ∧
    (∀ n, hasLabel preemptibleLabel n = true ↔
      ∃ v, ("cloud.google.com/gke-preemptible", v) ∈ n.Labels) ∧
    ((∀ n ∈ items, hasLabel preemptibleLabel n = false) →
      (getKillableNodes env s).1 = Except.ok []) := by
  have hres : (getKillableNodes env s).1 =
      Except.ok (items.filter (hasLabel preemptibleLabel)) := by
    have h1 : (env.nodesList (emit (.log "Listing available nodes in the cluster") s).world).1
        = Except.ok items := h
    simp only [getKillableNodes, getNodes]
    rw [h1]
    simp [killable_foldl]
  refine ⟨hres, List.filter_sublist _, ?_, ?_, ?_⟩
  · intro n
    by_cases hn : hasLabel preemptibleLabel n = true
    · simp [hn, List.count_filter]
    · rw [if_neg hn, List.count_eq_zero]
      intro hmem
      exact hn (List.mem_filter.mp hmem).2
  · intro n
    simp only [hasLabel, List.any_eq_true, beq_iff_eq, preemptibleLabel]
    constructor
    · rintro ⟨⟨k, v⟩, hmem, hk⟩
      exact ⟨v, by simpa [← show k = "cloud.google.com/gke-preemptible" from hk] using hmem⟩
    · rintro ⟨v, hv⟩
      exact ⟨_, hv, rfl⟩
  · intro hnone
    rw [hres]
    congr 1
    rw [List.filter_eq_nil_iff]
    intro n hn
    simp [hnone n hn]

/-- C6, at a list of three nodes of which the second has no marker label. -/
theorem getKillableNodes_filters_marker_witness :
    (getKillableNodes (scriptedEnv [nodeA, nodeB, nodeC] [] ⟨0⟩ allSucceed) start).1 =
      Except.ok [nodeA, nodeC] :=
  (getKillableNodes_filters_marker (scriptedEnv [nodeA, nodeB, nodeC] [] ⟨0⟩ allSucceed)
    start [nodeA, nodeB, nodeC] rfl).1

/-! ## Cordoning -/

/-- C9: on a node that is already unschedulable `cordonNode` returns nil,
leaves the node as it is and makes no remote call; and after a first
`cordonNode` whose update succeeded, a second `cordonNode` on the resulting
node returns nil, leaves that node as it is and makes no remote call. -/
theorem cordonNode_idempotent (env : Env σ) (n : Node) (s : St σ) :
    (n.Unschedulable = true →
      (cordonNode env n s).1 = (none, n) ∧
      (cordonNode env n s).2.world = s.world ∧
      calls (cordonNode env n s).2.trace = calls s.trace) ∧
    ((cordonNode env n s).1.1 = none →
      (cordonNode env (cordonNode env n s).1.2 (cordonNode env n s).2).1 =
        (none, (cordonNode env n s).1.2) ∧
      (cordonNode env (cordonNode env n s).1.2 (cordonNode env n s).2).2.world =
        (cordonNode env n s).2.world ∧
      calls (cordonNode env (cordonNode env n s).1.2 (cordonNode env n s).2).2.trace =
        calls (cordonNode env n s).2.trace) := by
  have key : ∀ (m : Node) (t : St σ), m.Unschedulable = true →
      (cordonNode env m t).1 = (none, m) ∧ (cordonNode env m t).2.world = t.world ∧
      calls (cordonNode env m t).2.trace = calls t.trace := by
    intro m t hm
    simp [cordonNode, hm, emit, calls, isCall]
  refine ⟨key n s, fun _ => key _ _ ?_⟩
  unfold cordonNode
  by_cases hn : n.Unschedulable = true <;> simp [hn]

/-- C9, at a cordoned node and at a schedulable node whose update succeeds. -/
theorem cordonNode_idempotent_witness :
    (cordonNode (scriptedEnv [] [] ⟨0⟩ allSucceed) nodeC start).1 = (none, nodeC) ∧
    (cordonNode (scriptedEnv [] [] ⟨0⟩ allSucceed)
        (cordonNode (scriptedEnv [] [] ⟨0⟩ allSucceed) nodeA start).1.2
        (cordonNode (scriptedEnv [] [] ⟨0⟩ allSucceed) nodeA start).2).1 =
      (none, (cordonNode (scriptedEnv [] [] ⟨0⟩ allSucceed) nodeA start).1.2) :=
  ⟨((cordonNode_idempotent (scriptedEnv [] [] ⟨0⟩ allSucceed) nodeC start).1 rfl).1,
    ((cordonNode_idempotent (scriptedEnv [] [] ⟨0⟩ allSucceed) nodeA start).2 rfl).1⟩

/-! ## Draining -/

theorem drainNode_calls (env : Env σ) (n : Node) (s : St σ) :
    calls (drainNode env n s).trace =
      calls s.trace ++ Event.podsList ("spec.nodeName=" ++ n.Name) ::
        (match (env.podsList ("spec.nodeName=" ++ n.Name) s.world).1 with
          | .ok items => items.map evictionOf
          | .error _ => []) := by
  unfold drainNode getPodsOnNode
  cases h : (env.podsList ("spec.nodeName=" ++ n.Name) s.world).1 with
  | error err => simp [emit, h, calls, isCall]
  | ok items =>
    simp only [emit, h]
    rw [evict_foldl_calls]
    simp [calls, isCall]

/-- C10: when the pods-on-node query answers with `items`, the remote calls
`drainNode` makes after the query are one eviction request per pod of
`items`, in list order, each addressed to that pod's namespace and name,
whatever the answers to the eviction requests are. -/
theorem drainNode_evicts_each_pod (env : Env σ) (n : Node) (s : St σ) (items : List Pod)
    (h : (env.podsList ("spec.nodeName=" ++ n.Name) s.world).1 = Except.ok items) :
    calls (drainNode env n s).trace =
      calls s.trace ++ Event.podsList ("spec.nodeName=" ++ n.Name) ::
        items.map (fun p => Event.podsEvict p.Namespace p.Name) := by
  rw [drainNode_calls, h]
  rfl

/-- C10, at two pods whose eviction requests are both refused. -/
theorem drainNode_evicts_each_pod_witness :
    calls (drainNode (scriptedEnv [] workload ⟨0⟩ (fun w => decide (0 < w))) nodeB start).trace =
      [.podsList "spec.nodeName=node-b", .podsEvict "default" "web-1",
        .podsEvict "batch" "job-7"] :=
  drainNode_evicts_each_pod (scriptedEnv [] workload ⟨0⟩ (fun w => decide (0 < w))) nodeB
    start workload rfl

/-! ## Recycling the node the recycler runs on -/

/-- C1: for a node whose name is the node name of the recycler's own pod,
whatever the remote calls answer, `recycleNode` ends in `os.Exit(0)`, and
what it does is: the log line of `recycleNode`, one run of `cordonNode`, the
"This is my node" log line, and one eviction request for the recycler's own
pod (followed by at most the log line of its error). No node deletion, no
instance deletion and no other eviction is among its events. -/
theorem recycleNode_self_evicts_and_exits (env : Env σ) (r : Recycler) (n : Node) (s : St σ)
    (h : n.Name = r.Pod.NodeName) :
    (recycleNode env r n s).1 = Outcome.exit 0 ∧
    ∃ tail, (tail = [] ∨ ∃ err, tail = [Event.log err]) ∧
      (recycleNode env r n s).2.trace =
        s.trace ++ [.log "Preparing to recycle node"] ++ cordonEvents n ++
          [.log "This is my node. Evicting myself. Bye!",
            .log ("Evicting pod " ++ r.Pod.Namespace ++ "/" ++ r.Pod.Name),
            .podsEvict r.Pod.Namespace r.Pod.Name] ++ tail ∧
      calls (recycleNode env r n s).2.trace =
        calls s.trace ++
          (if n.Unschedulable then [] else [.nodesUpdate { n with Unschedulable := true }]) ++
          [.podsEvict r.Pod.Namespace r.Pod.Name] ∧
      ∀ e ∈ [Event.log "Preparing to recycle node"] ++ cordonEvents n ++
          [.log "This is my node. Evicting myself. Bye!",
            .log ("Evicting pod " ++ r.Pod.Namespace ++ "/" ++ r.Pod.Name),
            .podsEvict r.Pod.Namespace r.Pod.Name] ++ tail,
        (∀ name, e ≠ .nodesDelete name) ∧ (∀ project zone inst, e ≠ .gceDelete project zone inst) ∧
        (∀ ns name, e = .podsEvict ns name → ns = r.Pod.Namespace ∧ name = r.Pod.Name) := by
  have hmine : isMyNode r (cordonNode env n (emit (.log "Preparing to recycle node") s)).1.2
      = true := by
    simp [isMyNode, (cordonNode_name env n _).1, h]
  have hrun : recycleNode env r n s = (Outcome.exit 0, evictPod env r.Pod
      (emit (.log "This is my node. Evicting myself. Bye!")
        (cordonNode env n (emit (.log "Preparing to recycle node") s)).2)) := by
    simp only [recycleNode, hmine, if_true]
  obtain ⟨tail, htail, ht⟩ := evictPod_trace env r.Pod
    (emit (.log "This is my node. Evicting myself. Bye!")
      (cordonNode env n (emit (.log "Preparing to recycle node") s)).2)
  have htrace : (recycleNode env r n s).2.trace =
      s.trace ++ [.log "Preparing to recycle node"] ++ cordonEvents n ++
        [.log "This is my node. Evicting myself. Bye!",
          .log ("Evicting pod " ++ r.Pod.Namespace ++ "/" ++ r.Pod.Name),
          .podsEvict r.Pod.Namespace r.Pod.Name] ++ tail := by
    rw [hrun]
    simp only [ht]
    simp [emit, cordonNode_trace, evictionOf]
  refine ⟨by rw [hrun], tail, htail, htrace, ?_, ?_⟩
  · rw [htrace]
    unfold cordonEvents
    by_cases hn : n.Unschedulable = true <;>
      rcases htail with rfl | ⟨err, rfl⟩ <;> simp [hn, calls, isCall]
  · intro e he
    unfold cordonEvents at he
    by_cases hn : n.Unschedulable = true <;>
      rcases htail with rfl | ⟨err, rfl⟩ <;>
      simp [hn] at he <;>
      rcases he with rfl | rfl | rfl | rfl | rfl | rfl | rfl <;> simp

/-- C1, at the recycler's own node when every remote call fails. -/
theorem recycleNode_self_evicts_and_exits_witness :
    nodeA.Name = recycler.Pod.NodeName ∧
    (recycleNode (scriptedEnv [] workload ⟨0⟩ allFail) recycler nodeA start).1 =
      Outcome.exit 0 :=
  ⟨rfl, (recycleNode_self_evicts_and_exits (scriptedEnv [] workload ⟨0⟩ allFail) recycler
    nodeA start rfl).1⟩

/-! ## Decoding the provider id -/

theorem splitChars_segment (sep : Char) (seg : List Char) (hseg : sep ∉ seg) :
    splitChars sep seg = [seg] ∧
      ∀ rest, splitChars sep (seg ++ sep :: rest) = seg :: splitChars sep rest := by
  induction seg with
  | nil => exact ⟨rfl, fun rest => by simp [splitChars]⟩
  | cons c cs ih =>
    have hc : c ≠ sep := fun h => hseg (by simp [h])
    have hcs : sep ∉ cs := fun h => hseg (List.mem_cons_of_mem _ h)
    obtain ⟨h1, h2⟩ := ih hcs
    refine ⟨by simp [splitChars, hc, h1], fun rest => ?_⟩
    simp [splitChars, hc, h2]

theorem stringsSplit_providerID (project zone inst : String)
    (hp : '/' ∉ project.data) (hz : '/' ∉ zone.data) (hi : '/' ∉ inst.data) :
    stringsSplit ("gce://" ++ project ++ "/" ++ zone ++ "/" ++ inst) '/' =
      ["gce:", "", project, zone, inst] := by
  have e : ("gce://" ++ project ++ "/" ++ zone ++ "/" ++ inst).data =
      ['g', 'c', 'e', ':'] ++ '/' :: ([] ++ '/' :: (project.data ++ '/' ::
        (zone.data ++ '/' :: inst.data))) := by
    simp [String.data_append]
  unfold stringsSplit
  rw [e, (splitChars_segment '/' ['g', 'c', 'e', ':'] (by decide)).2,
    (splitChars_segment '/' [] (by simp)).2, (splitChars_segment '/' _ hp).2,
    (splitChars_segment '/' _ hz).2, (splitChars_segment '/' _ hi).1]
  rfl

theorem deleteInstance_of_segments (env : Env σ) (n : Node) (s : St σ)
    (a b project zone inst : String) (rest : List String)
    (h : stringsSplit n.ProviderID '/' = a :: b :: project :: zone :: inst :: rest) :
    deleteInstance env n s =
      (.ret (env.gceDelete project zone inst s.world).1,
        ⟨(env.gceDelete project zone inst s.world).2,
          s.trace ++ [.gceDelete project zone inst]⟩) := by
  simp [deleteInstance, h]

theorem deleteInstance_of_short (env : Env σ) (n : Node) (s : St σ)
    (h : (stringsSplit n.ProviderID '/').length < 5) :
    deleteInstance env n s = (.panic "runtime error: index out of range", s) := by
  unfold deleteInstance
  have h4 : (stringsSplit n.ProviderID '/')[4]? = none := by
    rw [List.getElem?_eq_none_iff]
    omega
  simp only [h4]
  split
  · simp_all
  · rfl

/-- C8: for project, zone and instance names without "/", the provider id
"gce://" ++ project ++ "/" ++ zone ++ "/" ++ instance splits into the five
segments "gce:", "", project, zone, instance, and `deleteInstance` makes
exactly one remote call, the GCE delete of (project, zone, instance), whose
answer it returns. -/
theorem deleteInstance_decodes_providerID (env : Env σ) (n : Node) (s : St σ)
    (project zone inst : String)
    (hp : '/' ∉ project.data) (hz : '/' ∉ zone.data) (hi : '/' ∉ inst.data)
    (hid : n.ProviderID = "gce://" ++ project ++ "/" ++ zone ++ "/" ++ inst) :
    stringsSplit n.ProviderID '/' = ["gce:", "", project, zone, inst] ∧
    deleteInstance env n s =
      (.ret (env.gceDelete project zone inst s.world).1,
        ⟨(env.gceDelete project zone inst s.world).2,
          s.trace ++ [.gceDelete project zone inst]⟩) := by
  have hs := stringsSplit_providerID project zone inst hp hz hi
  rw [← hid] at hs
  exact ⟨hs, deleteInstance_of_segments env n s _ _ _ _ _ _ hs⟩

/-- C8, at the provider id "gce://proj-1/us-central1-a/node-42". -/
theorem deleteInstance_decodes_providerID_witness :
    deleteInstance (scriptedEnv [] [] ⟨0⟩ allSucceed)
        (mkNode "node-42" 0 true "gce://proj-1/us-central1-a/node-42") start =
      (.ret (.ok "operation-node-42"),
        ⟨1, [.gceDelete "proj-1" "us-central1-a" "node-42"]⟩) :=
  (deleteInstance_decodes_providerID (scriptedEnv [] [] ⟨0⟩ allSucceed)
    (mkNode "node-42" 0 true "gce://proj-1/us-central1-a/node-42") start
    "proj-1" "us-central1-a" "node-42" (by decide) (by decide) (by decide) rfl).2

/-! ## Recycling another node -/

theorem deleteNode_calls (env : Env σ) (n : Node) (s : St σ) :
    calls (deleteNode env n s).trace = calls s.trace ++ [.nodesDelete n.Name] := by
  unfold deleteNode
  cases h : (env.nodesDelete n.Name s.world).1 <;> simp [emit, h, calls, isCall]

theorem recycleNode_other_upto_deleteNode (env : Env σ) (r : Recycler) (n : Node) (s : St σ)
    (h : r.Pod.NodeName ≠ n.Name) :
    ∃ s3 : St σ, calls s3.trace = callsBeforeInstance env n s ∧
      recycleNode env r n s =
        match deleteInstance env (cordonNode env n (emit (.log "Preparing to recycle node") s)).1.2
            s3 with
        | (.ret _, s4) => (.ret (), emit (.log "Node has been recycled") s4)
        | (.exit code, s4) => (.exit code, s4)
        | (.panic msg, s4) => (.panic msg, s4) := by
  have hname := (cordonNode_name env n (emit (.log "Preparing to recycle node") s)).1
  have hmine : isMyNode r (cordonNode env n (emit (.log "Preparing to recycle node") s)).1.2
      = false := by
    simp [isMyNode, hname, h]
  refine ⟨deleteNode env (cordonNode env n (emit (.log "Preparing to recycle node") s)).1.2
    (drainNode env (cordonNode env n (emit (.log "Preparing to recycle node") s)).1.2
      (cordonNode env n (emit (.log "Preparing to recycle node") s)).2), ?_, ?_⟩
  · rw [deleteNode_calls, drainNode_calls, hname, cordonNode_trace]
    unfold callsBeforeInstance cordonEvents
    by_cases hn : n.Unschedulable = true <;> simp [hn, emit, calls, isCall]
  · simp only [recycleNode, hmine]
    rfl

/-- For a node other than the recycler's whose provider id has at least five
"/"-separated segments, whatever the remote calls answer, `recycleNode`
returns, and its remote calls are in this order: the cordon update (unless
the node is already unschedulable), the pod query, one eviction per pod the
query returned (none when it failed), the node deletion, the instance
deletion. -/
theorem recycleNode_other_sequence (env : Env σ) (r : Recycler) (n : Node) (s : St σ)
    (a b project zone inst : String) (rest : List String)
    (h : r.Pod.NodeName ≠ n.Name)
    (hid : stringsSplit n.ProviderID '/' = a :: b :: project :: zone :: inst :: rest) :
    (recycleNode env r n s).1 = Outcome.ret () ∧
    calls (recycleNode env r n s).2.trace =
      callsBeforeInstance env n s ++ [.gceDelete project zone inst] := by
  obtain ⟨s3, hcalls, hrun⟩ := recycleNode_other_upto_deleteNode env r n s h
  have hid1 : stringsSplit
      (cordonNode env n (emit (.log "Preparing to recycle node") s)).1.2.ProviderID '/' =
      a :: b :: project :: zone :: inst :: rest := by
    rw [(cordonNode_name env n _).2, hid]
  rw [hrun, deleteInstance_of_segments env _ s3 a b project zone inst rest hid1]
  refine ⟨rfl, ?_⟩
  simp only [emit]
  rw [calls_append, calls_append, hcalls]
  simp [calls, isCall]

/-- The sequence at `nodeC` on a world where every call fails. -/
theorem recycleNode_other_sequence_witness :
    (recycleNode (scriptedEnv [] workload ⟨0⟩ allFail) recycler nodeC start).1 =
      Outcome.ret () ∧
    calls (recycleNode (scriptedEnv [] workload ⟨0⟩ allFail) recycler nodeC start).2.trace =
      [.podsList "spec.nodeName=node-c", .nodesDelete "node-c",
        .gceDelete "proj-1" "us-central1-a" "node-c"] :=
  recycleNode_other_sequence (scriptedEnv [] workload ⟨0⟩ allFail) recycler nodeC start
    "gce:" "" "proj-1" "us-central1-a" "node-c" [] (by decide) rfl

/-- C7: on the provider ids "" and "gce://proj-1/zone" `deleteInstance` does
not return an error: indexing the split segments panics before any remote
call. `recycleNode` on such a node (not the recycler's own) ends in that
panic and does not return. -/
theorem deleteInstance_malformed_panics (env : Env σ) (s : St σ) :
    stringsSplit nodeNoProvider.ProviderID '/' = [""] ∧
    stringsSplit nodeShortProvider.ProviderID '/' = ["gce:", "", "proj-1", "zone"] ∧
    deleteInstance env nodeNoProvider s = (.panic "runtime error: index out of range", s) ∧
    deleteInstance env nodeShortProvider s = (.panic "runtime error: index out of range", s) ∧
    (recycleNode env recycler nodeShortProvider s).1 =
      .panic "runtime error: index out of range" := by
  refine ⟨rfl, rfl, deleteInstance_of_short env _ s (by decide),
    deleteInstance_of_short env _ s (by decide), ?_⟩
  obtain ⟨s3, _, hrun⟩ := recycleNode_other_upto_deleteNode env recycler nodeShortProvider s (by decide)
  rw [hrun, deleteInstance_of_short env _ s3 (by
    rw [(cordonNode_name env nodeShortProvider _).2]
    decide)]

/-- C2: on a node other than the recycler's whose provider id is empty,
`recycleNode` makes the cordon update, the pod query, the evictions and the
node deletion, then panics inside `deleteInstance`: no instance deletion is
requested and `recycleNode` does not return to its caller. -/
theorem recycleNode_other_malformed_panics (env : Env σ) (s : St σ) :
    recycler.Pod.NodeName ≠ nodeNoProvider.Name ∧
    (recycleNode env recycler nodeNoProvider s).1 =
      .panic "runtime error: index out of range" ∧
    calls (recycleNode env recycler nodeNoProvider s).2.trace =
      callsBeforeInstance env nodeNoProvider s := by
  obtain ⟨s3, hcalls, hrun⟩ := recycleNode_other_upto_deleteNode env recycler nodeNoProvider s (by decide)
  rw [hrun, deleteInstance_of_short env _ s3 (by
    rw [(cordonNode_name env nodeNoProvider _).2]
    decide)]
  exact ⟨by decide, rfl, hcalls⟩

/-! ## The sort of the standard library -/

theorem swapAt_perm (data : List Node) (i j : Nat) (hij : i ≠ j) :
    (swapAt data i j).Perm data := by
  unfold swapAt
  cases hi : data[i]? with
  | none => simp
  | some a =>
    cases hj : data[j]? with
    | none => simp
    | some b =>
      simp only
      obtain ⟨hi1, hia⟩ := List.getElem?_eq_some_iff.mp hi
      obtain ⟨hj1, hjb⟩ := List.getElem?_eq_some_iff.mp hj
      rw [List.perm_iff_count]
      intro c
      have hj2 : j < (data.set i b).length := by simpa using hj1
      rw [List.count_set _ _ _ _ hj2, List.count_set _ _ _ _ hi1]
      have e : (data.set i b)[j] = b := by
        rw [List.getElem_set_ne hij]
        exact hjb
      rw [e, hia]
      have hpos : (if (a == c) = true then 1 else 0) ≤ data.count c := by
        by_cases hac : a = c
        · subst hac
          have hmem : a ∈ data := hia ▸ List.getElem_mem hi1
          have := List.count_pos_iff.mpr hmem
          rw [if_pos (by simp)]
          omega
        · simp [hac]
      omega

theorem gapPass_perm (less : Node → Node → Bool) (data : List Node) :
    (gapPass less data).Perm data := by
  unfold gapPass
  generalize List.range (data.length - 6) = ks
  induction ks generalizing data with
  | nil => simp
  | cons k ks ih =>
    simp only [List.foldl_cons]
    refine (ih _).trans ?_
    split
    · split
      · exact swapAt_perm _ _ _ (by omega)
      · exact List.Perm.refl _
    · exact List.Perm.refl _

theorem bubbleLeft_eq_orderedInsert (less : Node → Node → Bool) (x : Node) (l : List Node) :
    bubbleLeft less x l = List.orderedInsert (fun a b => less a b = false) x l := by
  induction l with
  | nil => rfl
  | cons y ys ih =>
    by_cases h : less x y = true
    · simp [bubbleLeft, List.orderedInsert, h, ih]
    · simp [bubbleLeft, List.orderedInsert, h]

theorem insertion_foldl (less : Node → Node → Bool)
    (hasym : ∀ a b, less a b = true → less b a = false)
    (htrans : ∀ a b c, less b a = false → less c b = false → less c a = false)
    (data acc : List Node) (hacc : acc.Sorted (fun a b => less a b = false)) :
    (data.foldl (fun sortedRev x => bubbleLeft less x sortedRev) acc).Perm (acc ++ data) ∧
    (data.foldl (fun sortedRev x => bubbleLeft less x sortedRev) acc).Sorted
      (fun a b => less a b = false) := by
  haveI : IsTotal Node (fun a b => less a b = false) := ⟨fun a b => by
    by_cases h : less a b = true
    · exact Or.inr (hasym a b h)
    · exact Or.inl (by simpa using h)⟩
  haveI : IsTrans Node (fun a b => less a b = false) :=
    ⟨fun a b c hab hbc => htrans c b a hbc hab⟩
  induction data generalizing acc with
  | nil => simpa using hacc
  | cons x xs ih =>
    simp only [List.foldl_cons]
    rw [bubbleLeft_eq_orderedInsert]
    obtain ⟨hp, hs⟩ := ih _ (hacc.orderedInsert x acc)
    refine ⟨hp.trans ?_, hs⟩
    have := List.perm_orderedInsert (fun a b => less a b = false) x acc
    refine (List.Perm.append_right xs this).trans ?_
    simp only [List.cons_append]
    exact List.perm_middle.symm

/-- The sort of the Go releases up to 1.18 on short slices meets the
contract of `sort.Slice`. -/
theorem legacySortSlice_spec : SortSliceSpec legacySortSlice := by
  intro less hasym htrans l
  obtain ⟨hp, hs⟩ := insertion_foldl less hasym htrans (gapPass less l) [] List.sorted_nil
  have hp1 : (List.foldl (fun sortedRev x => bubbleLeft less x sortedRev) []
      (gapPass less l)).Perm (gapPass less l) := by simpa using hp
  unfold legacySortSlice insertionSortFunc
  refine ⟨(List.reverse_perm _).trans (hp1.trans (gapPass_perm less l)), ?_⟩
  rw [List.pairwise_reverse]
  exact hs

theorem creationLess_asymm (a b : Node) (h : creationLess a b = true) :
    creationLess b a = false := by
  simp only [creationLess, decide_eq_true_eq, decide_eq_false_iff_not] at *
  omega

theorem creationLess_trans (a b c : Node) (h1 : creationLess b a = false)
    (h2 : creationLess c b = false) : creationLess c a = false := by
  simp only [creationLess, decide_eq_false_iff_not] at *
  omega

/-! ## Electing the oldest node -/

theorem getKillableNodes_run (env : Env σ) (s : St σ) (items : List Node)
    (h : (env.nodesList s.world).1 = Except.ok items) :
    getKillableNodes env s =
      (.ok (items.filter (hasLabel preemptibleLabel)),
        ⟨(env.nodesList s.world).2,
          s.trace ++ [.log "Listing available nodes in the cluster", .nodesList,
            .log "Getting nodes that can be recycled (preemptibles)"]⟩) := by
  have h1 : (env.nodesList (emit (.log "Listing available nodes in the cluster") s).world).1
      = Except.ok items := h
  simp only [getKillableNodes, getNodes]
  rw [h1]
  simp [killable_foldl, emit]

/-- C3 (amended): for a sort that meets the contract of `sort.Slice`, when
the node list call answers with `items` and at least one node of `items` has
the marker label, `getElderNode` returns a node, that node is one of the
candidates, and its creation timestamp is less than or equal to that of
every candidate. -/
theorem getElderNode_returns_an_oldest
    (sortSlice : (Node → Node → Bool) → List Node → List Node)
    (hsort : SortSliceSpec sortSlice) (env : Env σ) (s : St σ) (items : List Node)
    (h : (env.nodesList s.world).1 = Except.ok items)
    (hne : items.filter (hasLabel preemptibleLabel) ≠ []) :
    ∃ node, (getElderNode sortSlice env s).1 = Outcome.ret (Except.ok node) ∧
      node ∈ items.filter (hasLabel preemptibleLabel) ∧
      ∀ c ∈ items.filter (hasLabel preemptibleLabel),
        node.CreationTimestamp.UnixNano ≤ c.CreationTimestamp.UnixNano := by
  obtain ⟨hperm, hpair⟩ := hsort creationLess creationLess_asymm creationLess_trans
    (items.filter (hasLabel preemptibleLabel))
  cases hsorted : sortSlice creationLess (items.filter (hasLabel preemptibleLabel)) with
  | nil =>
    rw [hsorted] at hperm
    exact absurd hperm.symm.eq_nil hne
  | cons node rest =>
    rw [hsorted] at hperm hpair
    refine ⟨node, ?_, hperm.subset (List.mem_cons_self _ _), fun c hc => ?_⟩
    · simp [getElderNode, getKillableNodes_run env s items h, hsorted]
    · rcases List.mem_cons.mp (hperm.symm.subset hc) with rfl | hrest
      · exact le_refl _
      · have := (List.pairwise_cons.mp hpair).1 c hrest
        simpa [creationLess] using this

/-- C3 (amended), at seven candidates under the sort of Go up to 1.18. -/
theorem getElderNode_returns_an_oldest_witness :
    ∃ node,
      (getElderNode legacySortSlice (scriptedEnv sevenNodes [] ⟨0⟩ allSucceed) start).1 =
        Outcome.ret (Except.ok node) ∧
      node ∈ sevenNodes.filter (hasLabel preemptibleLabel) ∧
      ∀ c ∈ sevenNodes.filter (hasLabel preemptibleLabel),
        node.CreationTimestamp.UnixNano ≤ c.CreationTimestamp.UnixNano :=
  getElderNode_returns_an_oldest legacySortSlice legacySortSlice_spec
    (scriptedEnv sevenNodes [] ⟨0⟩ allSucceed) start sevenNodes rfl (by decide)

/-- C3 as stated fails: under the sort of Go up to 1.18, which meets the
contract of `sort.Slice`, seven candidates created at 2, 5, 5, 1, 5, 5, 1
make `getElderNode` return the seventh, although the fourth has the same
minimal creation timestamp and occurs first in the input. -/
theorem getElderNode_tie_not_first_occurrence :
    SortSliceSpec legacySortSlice ∧
    sevenNodes.filter (hasLabel preemptibleLabel) = sevenNodes ∧
    (getElderNode legacySortSlice (scriptedEnv sevenNodes [] ⟨0⟩ allSucceed) start).1 =
      Outcome.ret (Except.ok (mkNode "g" 1 false "gce://proj-1/us-central1-a/g")) ∧
    firstOldest sevenNodes = some (mkNode "d" 1 false "gce://proj-1/us-central1-a/d") ∧
    mkNode "g" 1 false "gce://proj-1/us-central1-a/g" ≠
      mkNode "d" 1 false "gce://proj-1/us-central1-a/d" :=
  ⟨legacySortSlice_spec, by decide, by rfl, by decide, by decide⟩

/-- C5: for a sort that meets the contract of `sort.Slice`, when the node
list call answers with `items` and no node of `items` has the marker label,
`getElderNode` does not return an error: indexing element 0 of the empty
slice panics, and the loop body of `main` ends in that panic, not in its
fatal-error branch, after the node list call as only remote call. -/
theorem getElderNode_no_candidates_panics
    (sortSlice : (Node → Node → Bool) → List Node → List Node)
    (hsort : SortSliceSpec sortSlice) (env : Env σ) (r : Recycler) (s : St σ)
    (items : List Node)
    (h : (env.nodesList s.world).1 = Except.ok items)
    (hnone : items.filter (hasLabel preemptibleLabel) = []) :
    (getElderNode sortSlice env s).1 = Outcome.panic "runtime error: index out of range" ∧
    (mainLoopBody sortSlice env r s).1 = Outcome.panic "runtime error: index out of range" ∧
    calls (mainLoopBody sortSlice env r s).2.trace = calls s.trace ++ [.nodesList] := by
  obtain ⟨hperm, _⟩ := hsort creationLess creationLess_asymm creationLess_trans []
  have hsorted : sortSlice creationLess [] = [] := hperm.eq_nil
  have hrun : getElderNode sortSlice env s =
      (.panic "runtime error: index out of range",
        ⟨(env.nodesList s.world).2,
          s.trace ++ [.log "Listing available nodes in the cluster", .nodesList,
            .log "Getting nodes that can be recycled (preemptibles)",
            .log "Getting the oldest node"]⟩) := by
    simp [getElderNode, getKillableNodes_run env s items h, hnone, hsorted, emit]
  refine ⟨by rw [hrun], ?_, ?_⟩
  · simp only [mainLoopBody, hrun]
  · simp only [mainLoopBody, hrun]
    simp [calls, isCall]

/-- C5, at a cluster whose only node has no marker label. -/
theorem getElderNode_no_candidates_panics_witness :
    (getElderNode legacySortSlice (scriptedEnv [nodeB] [] ⟨0⟩ allSucceed) start).1 =
      Outcome.panic "runtime error: index out of range" ∧
    (mainLoopBody legacySortSlice (scriptedEnv [nodeB] [] ⟨0⟩ allSucceed) recycler start).1 =
      Outcome.panic "runtime error: index out of range" :=
  ⟨(getElderNode_no_candidates_panics legacySortSlice legacySortSlice_spec
      (scriptedEnv [nodeB] [] ⟨0⟩ allSucceed) recycler start [nodeB] rfl (by decide)).1,
    (getElderNode_no_candidates_panics legacySortSlice legacySortSlice_spec
      (scriptedEnv [nodeB] [] ⟨0⟩ allSucceed) recycler start [nodeB] rfl (by decide)).2.1⟩

/-! ## The age check of the control loop -/

/-- C4: when `getElderNode` elects the node `n`, the loop body of `main`
compares the age `time.Since(n.CreationTimestamp)` with `AgeToKill` strictly:
at an age less than or equal to `AgeToKill` it logs that the age is lower
than the minimum, sleeps and returns without any recycle step, and only at
an age greater than `AgeToKill` does it run `recycleNode`. -/
theorem mainLoopBody_threshold_strict
    (sortSlice : (Node → Node → Bool) → List Node → List Node)
    (env : Env σ) (r : Recycler) (s s1 : St σ) (n : Node)
    (h : getElderNode sortSlice env s = (.ret (.ok n), s1)) :
    (timeSub (env.now s1.world).1 n.CreationTimestamp ≤ r.AgeToKill →
      mainLoopBody sortSlice env r s =
        (.ret (), ⟨(env.now s1.world).2,
          s1.trace ++ [.log "Node age is lower than the minimum age to be recycled.",
            .log "Sleeping...", .sleep r.SleepTime]⟩)) ∧
    (r.AgeToKill < timeSub (env.now s1.world).1 n.CreationTimestamp →
      mainLoopBody sortSlice env r s =
        match recycleNode env r n ⟨(env.now s1.world).2, s1.trace⟩ with
        | (.ret _, s3) => (.ret (), emit (.sleep r.SleepTime) (emit (.log "Sleeping...") s3))
        | (.exit code, s3) => (.exit code, s3)
        | (.panic msg, s3) => (.panic msg, s3)) := by
  constructor
  · intro hle
    have hnot : ¬ timeSub (env.now s1.world).1 n.CreationTimestamp > r.AgeToKill := not_lt.mpr hle
    simp [mainLoopBody, h, hnot, emit]
  · intro hlt
    have hgt : timeSub (env.now s1.world).1 n.CreationTimestamp > r.AgeToKill := hlt
    simp only [mainLoopBody, h, hgt, if_true]

/-- C4, at a node whose age equals `AgeToKill` (12 hours): no recycle. -/
theorem mainLoopBody_threshold_strict_witness :
    timeSub ⟨43200000000000⟩ nodeA.CreationTimestamp = recycler.AgeToKill ∧
    mainLoopBody legacySortSlice
        (scriptedEnv [nodeA, nodeB] workload ⟨43200000000000⟩ allSucceed) recycler start =
      (.ret (), ⟨1,
        [.log "Listing available nodes in the cluster", .nodesList,
          .log "Getting nodes that can be recycled (preemptibles)",
          .log "Getting the oldest node", .log "Oldest node is node-a",
          .log "Node age is lower than the minimum age to be recycled.",
          .log "Sleeping...", .sleep 600000000000]⟩) :=
  ⟨by decide,
    (mainLoopBody_threshold_strict legacySortSlice
      (scriptedEnv [nodeA, nodeB] workload ⟨43200000000000⟩ allSucceed) recycler start
      ⟨1, [.log "Listing available nodes in the cluster", .nodesList,
          .log "Getting nodes that can be recycled (preemptibles)",
          .log "Getting the oldest node", .log "Oldest node is node-a"]⟩
      nodeA rfl).1 (by decide)⟩

end NodeRecycler
